import Mathlib

/-!
Verification development for the spectral-index module of FORCE
(src/higher-level/index-hl.c).

Shallow embedding conventions:
* Raster samples are C `short` values, embedded as `ℤ`.
* C `float`/`double` arithmetic on those samples is embedded as exact
  arithmetic in `ℚ` (or `ℝ` where the C code calls `sqrt`/`exp`).
  Division by zero in `ℚ`/`ℝ` yields the junk value 0; every C code path
  the claims are about tests the denominator before the quotient is used.
* The C cast `(short)x` truncates toward zero; it is embedded as
  `castShort` below.  For arguments outside the `short` range the C cast
  is undefined behaviour; the embedding keeps the mathematical truncation
  (the claims only need that such a result is written, not equal to the
  nodata sentinel).
* An image band is a function `Nat → ℤ` (cell index to sample);
  `ard` is embedded as `dat : Nat → Nat → Nat → ℤ` (date, band, cell)
  together with the per-date validity flags `msk : Nat → Nat → Bool`.
* The optional spatial mask `mask_` is `Option (Nat → Bool)`.
* Each kernel receives the previous contents `tss0` of its output array
  and returns the new contents as a total function; cells outside
  `p < nc`, `t < nt` keep their previous value, exactly like the C loops
  which only touch indices in range.
-/

set_option maxRecDepth 100000

/-- Truncation of a rational toward zero, the semantics of the C cast
from a floating value to an integer type. -/
def truncQ (q : ℚ) : ℤ := q.num.tdiv (q.den : ℤ)

/-- Embedding of the C cast `(short)x` applied to a scalar computed in
floating point: truncation toward zero. -/
def castShort (q : ℚ) : ℤ := truncQ q

/-- C SHRT_MAX. -/
def SHRT_MAX : ℚ := 32767

/-- C SHRT_MIN. -/
def SHRT_MIN : ℚ := -32768

/-- Test of the spatial mask: a cell is skipped iff a mask is supplied
and its entry at the cell is false (C: mask_ != NULL && !mask_[p]). -/
def maskedOut (mask : Option (Nat → Bool)) (p : Nat) : Bool :=
  match mask with
  | some m => !(m p)
  | none => false

/-- Kernel of index_band (band copy): value written at date t, cell p. -/
def index_band_val (dat : Nat → Nat → Nat → ℤ) (msk : Nat → Nat → Bool)
    (b : Nat) (nodata : ℤ) (t p : Nat) : ℤ :=
  if !(msk t p) then nodata else dat t b p

/-- index_band: copies band b into the time-series array. -/
def index_band (dat : Nat → Nat → Nat → ℤ) (msk : Nat → Nat → Bool)
    (mask : Option (Nat → Bool)) (b nc nt : Nat) (nodata : ℤ)
    (tss0 : Nat → Nat → ℤ) : Nat → Nat → ℤ :=
  fun t p =>
    if p < nc ∧ t < nt then
      if maskedOut mask p then nodata
      else index_band_val dat msk b nodata t p
    else tss0 t p

/-- Kernel of index_differenced (normalized difference, e.g. NDVI):
value written at date t, cell p. -/
def index_differenced_val (dat : Nat → Nat → Nat → ℤ) (msk : Nat → Nat → Bool)
    (b1 b2 : Nat) (nodata : ℤ) (t p : Nat) : ℤ :=
  if !(msk t p) then nodata
  else
    let tmp : ℚ := (dat t b1 p : ℚ) + (dat t b2 p : ℚ)
    let ind : ℚ := ((dat t b1 p : ℚ) - (dat t b2 p : ℚ)) / tmp
    if tmp = 0 ∨ ind < -1 ∨ ind > 1 then nodata
    else castShort (ind * 10000)

/-- index_differenced: normalized difference (b1-b2)/(b1+b2), scale 10000. -/
def index_differenced (dat : Nat → Nat → Nat → ℤ) (msk : Nat → Nat → Bool)
    (mask : Option (Nat → Bool)) (b1 b2 nc nt : Nat) (nodata : ℤ)
    (tss0 : Nat → Nat → ℤ) : Nat → Nat → ℤ :=
  fun t p =>
    if p < nc ∧ t < nt then
      if maskedOut mask p then nodata
      else index_differenced_val dat msk b1 b2 nodata t p
    else tss0 t p

/-- Kernel of index_cont_remove (continuum removal): value written at
date t, cell p.  No extra nodata condition: the interpolated value is
cast directly. -/
def index_cont_remove_val (dat : Nat → Nat → Nat → ℤ) (msk : Nat → Nat → Bool)
    (b0 b1 b2 : Nat) (w0 w1 w2 : ℚ) (nodata : ℤ) (t p : Nat) : ℤ :=
  if !(msk t p) then nodata
  else
    let tmp : ℚ := ((dat t b1 p : ℚ) * (w2 - w0) + (dat t b2 p : ℚ) * (w0 - w1)) / (w2 - w1)
    castShort ((dat t b0 p : ℚ) - tmp)

/-- index_cont_remove: continuum removal against the line through the
left and right band at their wavelengths. -/
def index_cont_remove (dat : Nat → Nat → Nat → ℤ) (msk : Nat → Nat → Bool)
    (mask : Option (Nat → Bool)) (b0 b1 b2 : Nat) (w0 w1 w2 : ℚ) (nc nt : Nat)
    (nodata : ℤ) (tss0 : Nat → Nat → ℤ) : Nat → Nat → ℤ :=
  fun t p =>
    if p < nc ∧ t < nt then
      if maskedOut mask p then nodata
      else index_cont_remove_val dat msk b0 b1 b2 w0 w1 w2 nodata t p
    else tss0 t p

/-- Kernel of index_ratio_minus1 (ratio minus one, e.g. CIre): value
written at date t, cell p.  Scale 1000; a zero b2 or a scaled value
outside the short range yields nodata. -/
def index_ratio_minus1_val (dat : Nat → Nat → Nat → ℤ) (msk : Nat → Nat → Bool)
    (b1 b2 : Nat) (nodata : ℤ) (t p : Nat) : ℤ :=
  if !(msk t p) then nodata
  else
    let ind : ℚ := (dat t b1 p : ℚ) / (dat t b2 p : ℚ) - 1
    if dat t b2 p = 0 ∨ ind * 1000 > SHRT_MAX ∨ ind * 1000 < SHRT_MIN then nodata
    else castShort (ind * 1000)

/-- index_ratio_minus1: b1/b2 - 1, scale 1000. -/
def index_ratio_minus1 (dat : Nat → Nat → Nat → ℤ) (msk : Nat → Nat → Bool)
    (mask : Option (Nat → Bool)) (b1 b2 nc nt : Nat) (nodata : ℤ)
    (tss0 : Nat → Nat → ℤ) : Nat → Nat → ℤ :=
  fun t p =>
    if p < nc ∧ t < nt then
      if maskedOut mask p then nodata
      else index_ratio_minus1_val dat msk b1 b2 nodata t p
    else tss0 t p

/-- Kernel of index_resistance (resistance-weighted indices, e.g. EVI):
value written at date t, cell p.  Only a zero denominator yields nodata;
the range check is absent in the source (commented out). -/
def index_resistance_val (dat : Nat → Nat → Nat → ℤ) (msk : Nat → Nat → Bool)
    (n r b : Nat) (f1 f2 f3 f4 : ℚ) (rbc : Bool) (nodata : ℤ) (t p : Nat) : ℤ :=
  if !(msk t p) then nodata
  else
    let x : ℚ := if rbc then 1 else 0
    let nir : ℚ := (dat t n p : ℚ)
    let blue : ℚ := (dat t b p : ℚ)
    let red : ℚ := (dat t r p : ℚ) - x * (blue - (dat t r p : ℚ))
    let tmp : ℚ := nir + f2 * red - f3 * blue + f4 * 10000
    let ind : ℚ := f1 * (nir - red) / tmp
    if tmp = 0 then nodata
    else castShort (ind * 10000)

/-- index_resistance: f1*(nir-red)/(nir+f2*red-f3*blue+f4*scale) with
optional red-blue correction of the red band. -/
def index_resistance (dat : Nat → Nat → Nat → ℤ) (msk : Nat → Nat → Bool)
    (mask : Option (Nat → Bool)) (n r b : Nat) (f1 f2 f3 f4 : ℚ) (rbc : Bool)
    (nc nt : Nat) (nodata : ℤ) (tss0 : Nat → Nat → ℤ) : Nat → Nat → ℤ :=
  fun t p =>
    if p < nc ∧ t < nt then
      if maskedOut mask p then nodata
      else index_resistance_val dat msk n r b f1 f2 f3 f4 rbc nodata t p
    else tss0 t p

/-- The fixed tasseled-cap coefficient table over
(blue, green, red, nir, swir1, swir2): brightness, greenness, wetness. -/
def tcTab : List (List ℚ) :=
  [[0.2043, 0.4158, 0.5524, 0.5741, 0.3124, 0.2303],
   [-0.1603, -0.2819, -0.4934, 0.7940, -0.0002, -0.1446],
   [0.0315, 0.2021, 0.3102, 0.1594, -0.6806, -0.6109]]

/-- Dot product of tasseled-cap row i with the six band values. -/
def tcDot (i : Nat) (blue green red nir sw1 sw2 : ℚ) : ℚ :=
  let row := tcTab.getD i []
  row.getD 0 0 * blue + row.getD 1 0 * green + row.getD 2 0 * red +
  row.getD 3 0 * nir + row.getD 4 0 * sw1 + row.getD 5 0 * sw2

/-- Tasseled-cap component codes, following the C enum TCB, TCG, TCW, TCD. -/
def TCB : Nat := 0

/-- Greenness component code. -/
def TCG : Nat := 1

/-- Wetness component code. -/
def TCW : Nat := 2

/-- Disturbance component code. -/
def TCD : Nat := 3

/-- Kernel of index_tasseled: value written at date t, cell p.  For the
components TCB, TCG, TCW the single coefficient row is used; TCD sums
brightness minus greenness minus wetness (weights 1, -1, -1).  The sum
is cast directly without a range check. -/
def index_tasseled_val (dat : Nat → Nat → Nat → ℤ) (msk : Nat → Nat → Bool)
    (ty blue green red nir sw1 sw2 : Nat) (nodata : ℤ) (t p : Nat) : ℤ :=
  if !(msk t p) then nodata
  else
    let bv : ℚ := (dat t blue p : ℚ)
    let gv : ℚ := (dat t green p : ℚ)
    let rv : ℚ := (dat t red p : ℚ)
    let nv : ℚ := (dat t nir p : ℚ)
    let s1v : ℚ := (dat t sw1 p : ℚ)
    let s2v : ℚ := (dat t sw2 p : ℚ)
    let ind : ℚ :=
      if ty = TCD then
        tcDot 0 bv gv rv nv s1v s2v - tcDot 1 bv gv rv nv s1v s2v -
          tcDot 2 bv gv rv nv s1v s2v
      else tcDot ty bv gv rv nv s1v s2v
    castShort ind

/-- index_tasseled: tasseled-cap transform, one component per call. -/
def index_tasseled (dat : Nat → Nat → Nat → ℤ) (msk : Nat → Nat → Bool)
    (mask : Option (Nat → Bool)) (ty blue green red nir sw1 sw2 nc nt : Nat)
    (nodata : ℤ) (tss0 : Nat → Nat → ℤ) : Nat → Nat → ℤ :=
  fun t p =>
    if p < nc ∧ t < nt then
      if maskedOut mask p then nodata
      else index_tasseled_val dat msk ty blue green red nir sw1 sw2 nodata t p
    else tss0 t p

/-- Truncation of a real toward zero, the semantics of the C cast from a
floating value to an integer type where the value is computed with
`sqrt` or `exp` (embedded via `ℝ`). -/
noncomputable def truncR (x : ℝ) : ℤ := if 0 ≤ x then ⌊x⌋ else ⌈x⌉

/-- The value the C cast `(short)(ind*scale)` produces when `ind` is
NaN, as happens in index_msrre for a strictly negative radicand: the C
`sqrt` returns NaN there, every comparison in the guard
`lower == 0 || ind*scale > SHRT_MAX || ind*scale < SHRT_MIN` is false
on NaN, and the source falls through to the cast of NaN, whose result
is unspecified (undefined behaviour; 0 on common x86 implementations,
which the embedding adopts).  The claims depend only on this path not
writing the nodata sentinel, not on the particular value. -/
def nanCastShort : ℤ := 0

/-- Kernel of index_msrre (normalized ratio, MSRre family): value
written at date t, cell p.  For a nonnegative radicand the real square
root agrees with the C `sqrt` and the guard and cast are modelled
directly; for a strictly negative radicand the C `sqrt` returns NaN,
no disjunct of the guard fires, and the source writes the cast of NaN,
embedded as the explicit `nanCastShort` branch. -/
noncomputable def index_msrre_val (dat : Nat → Nat → Nat → ℤ) (msk : Nat → Nat → Bool)
    (b1 b2 : Nat) (nodata : ℤ) (t p : Nat) : ℤ :=
  if !(msk t p) then nodata
  else
    if dat t b2 p ≠ 0 then
      if (dat t b1 p : ℝ) / (dat t b2 p : ℝ) + 1 < 0 then nanCastShort
      else
        let upper : ℝ := (dat t b1 p : ℝ) / (dat t b2 p : ℝ) - 1
        let lower : ℝ := Real.sqrt ((dat t b1 p : ℝ) / (dat t b2 p : ℝ) + 1)
        let ind : ℝ := upper / lower
        if lower = 0 ∨ ind * 10000 > 32767 ∨ ind * 10000 < -32768 then nodata
        else truncR (ind * 10000)
    else nodata

/-- index_msrre: ((b1/b2)-1)/sqrt((b1/b2)+1), scale 10000. -/
noncomputable def index_msrre (dat : Nat → Nat → Nat → ℤ) (msk : Nat → Nat → Bool)
    (mask : Option (Nat → Bool)) (b1 b2 nc nt : Nat) (nodata : ℤ)
    (tss0 : Nat → Nat → ℤ) : Nat → Nat → ℤ :=
  fun t p =>
    if p < nc ∧ t < nt then
      if maskedOut mask p then nodata
      else index_msrre_val dat msk b1 b2 nodata t p
    else tss0 t p

/-- Kernel of index_kernelized (kernelized normalized difference,
kNDVI): value written at date t, cell p. -/
noncomputable def index_kernelized_val (dat : Nat → Nat → Nat → ℤ) (msk : Nat → Nat → Bool)
    (b1 b2 : Nat) (nodata : ℤ) (t p : Nat) : ℤ :=
  if !(msk t p) || dat t b1 p ≤ 0 || dat t b2 p ≤ 0 then nodata
  else
    let sigma : ℝ := 0.5 * ((dat t b1 p : ℝ) + (dat t b2 p : ℝ))
    let diff : ℝ := (dat t b1 p : ℝ) - (dat t b2 p : ℝ)
    let tmp : ℝ := Real.exp (-(diff * diff) / (2 * sigma * sigma))
    let ind : ℝ := (1 - tmp) / (1 + tmp)
    truncR (ind * 10000)

/-- index_kernelized: tanh-style kernelized normalized difference. -/
noncomputable def index_kernelized (dat : Nat → Nat → Nat → ℤ) (msk : Nat → Nat → Bool)
    (mask : Option (Nat → Bool)) (b1 b2 nc nt : Nat) (nodata : ℤ)
    (tss0 : Nat → Nat → ℤ) : Nat → Nat → ℤ :=
  fun t p =>
    if p < nc ∧ t < nt then
      if maskedOut mask p then nodata
      else index_kernelized_val dat msk b1 b2 nodata t p
    else tss0 t p

/-- Dot product of two rational lists (pairwise product, summed). -/
def dotL (a b : List ℚ) : ℚ := (List.zipWith (fun x y => x * y) a b).sum

/-- Transpose of a list matrix given the intended column count m:
row j of the result collects entry j of every input row. -/
def transposeL (m : Nat) (A : List (List ℚ)) : List (List ℚ) :=
  (List.range m).map (fun j => A.map (fun row => row.getD j 0))

/-- Minimum of a rational list, as gsl_vector_min (0 on the empty list,
which GSL treats as an error; the solver never calls it on one in a
well-formed run). -/
def listMin : List ℚ → ℚ
  | [] => 0
  | q :: qs => qs.foldl min q

/-- Maximum of a rational list, as gsl_vector_max. -/
def listMax : List ℚ → ℚ
  | [] => 0
  | q :: qs => qs.foldl max q

/-- Helper for argmaxL: index of the first maximal element. -/
def argmaxAux : List ℚ → Nat → Nat → ℚ → Nat
  | [], _, bi, _ => bi
  | q :: qs, i, bi, bv => if q > bv then argmaxAux qs (i + 1) i q else argmaxAux qs (i + 1) bi bv

/-- Index of the first maximal element, as gsl_vector_max_index
(the lowest index is returned when there are ties). -/
def argmaxL : List ℚ → Nat
  | [] => 0
  | q :: qs => argmaxAux qs 1 0 q

/-- Laplace expansion of a determinant along the first row; the first
argument is the row count used as structural recursion fuel. -/
def detAux : Nat → List (List ℚ) → ℚ
  | _, [] => 1
  | 0, _ => 1
  | n + 1, r :: rs =>
      ((List.range r.length).map
        (fun j => (-1 : ℚ) ^ j * r.getD j 0 * detAux n (rs.map (fun row => row.eraseIdx j)))).sum

/-- Determinant of a square list matrix. -/
def detL (A : List (List ℚ)) : ℚ := detAux A.length A

/-- Replace column j of a list matrix by the vector b. -/
def replaceCol (A : List (List ℚ)) (j : Nat) (b : List ℚ) : List (List ℚ) :=
  (A.zip b).map (fun rb => rb.1.set j rb.2)

/-- Exact solution of the square linear system A y = b by the Cramer
rule.  For invertible A this equals inv(A) b, the value the source
computes with gsl_linalg_LU_decomp / LU_invert; for singular A the GSL
call has no defined result and the embedding returns the junk vector of
zeros (division by the zero determinant). -/
def cramerSolve (A : List (List ℚ)) (b : List ℚ) : List ℚ :=
  (List.range b.length).map (fun j => detL (replaceCol A j b) / detL A)

/-- Entries of v at the positions where the passive flag is set, in
order (the subsetting loops of the source). -/
def subsetVec (m : Nat) (P : List Bool) (v : List ℚ) : List ℚ :=
  (List.range m).filterMap (fun i => if P.getD i false then some (v.getD i 0) else none)

/-- Rows and columns of A at the positions where the passive flag is
set (the nested subsetting loops of the source). -/
def subsetMat (m : Nat) (P : List Bool) (A : List (List ℚ)) : List (List ℚ) :=
  (List.range m).filterMap
    (fun i => if P.getD i false then some (subsetVec m P (A.getD i [])) else none)

/-- Number of set flags among the first i entries. -/
def countT (P : List Bool) (i : Nat) : Nat :=
  ((List.range i).filter (fun j => P.getD j false)).length

/-- Scatter a passive-subset vector back to full length m: passive
positions receive the subset entries in order, active positions 0
(the copy-back loop of the source). -/
def scatter (m : Nat) (P : List Bool) (v : List ℚ) : List ℚ :=
  (List.range m).map (fun i => if P.getD i false then v.getD (countT P i) 0 else 0)

/-- The numeric tolerance of the solver: C FLT_MIN = 2 ^ (-126), the
smallest positive normalized single-precision value. -/
def smaTol : ℚ := 1 / 85070591730234615865843651857942052864

/-- C INT_MAX, the sentinel used for step candidates of excluded
components. -/
def intMaxQ : ℚ := 2147483647

/-- Shared constants of a constrained solve: material count M, the Gram
matrix ZtZ, the crossproduct Ztx, the tolerance and the inner iteration
budget itmax = 30 M. -/
structure NnlsCtx where
  M : Nat
  ZtZ : List (List ℚ)
  Ztx : List ℚ
  tol : ℚ
  itmax : Nat

/-- Mutable state of the active-set iteration: passive flags P, active
flags R, current iterate d, candidate s, gradient w and the inner
iteration counter it. -/
structure NnlsState where
  P : List Bool
  R : List Bool
  d : List ℚ
  s : List ℚ
  w : List ℚ
  it : Nat

/-- Unconstrained least squares restricted to the passive columns:
subset the Gram matrix and crossproduct, invert, and scatter the
solution back with zeros at active positions (steps B4 and C5 of the
source). -/
def solveP (ctx : NnlsCtx) (P : List Bool) : List ℚ :=
  scatter ctx.M P (cramerSolve (subsetMat ctx.M P ctx.ZtZ) (subsetVec ctx.M P ctx.Ztx))

/-- One iteration of the inner feasibility loop (steps C2 to C5-6 of
the source): step length alpha from the infeasible passive components,
interpolate d, demote components whose magnitude fell below the
tolerance, and re-solve on the reduced passive set. -/
def innerStep (ctx : NnlsCtx) (st : NnlsState) : NnlsState :=
  let a := (List.range ctx.M).map
    (fun i => if st.s.getD i 0 ≤ ctx.tol ∧ st.P.getD i false then
        st.d.getD i 0 / (st.d.getD i 0 - st.s.getD i 0)
      else intMaxQ)
  let alpha := listMin a
  let dn := (List.range ctx.M).map
    (fun i => st.d.getD i 0 + alpha * (st.s.getD i 0 - st.d.getD i 0))
  let Pn := (List.range ctx.M).map
    (fun i => if |dn.getD i 0| < ctx.tol ∧ st.P.getD i false then false else st.P.getD i false)
  let Rn := (List.range ctx.M).map
    (fun i => if |dn.getD i 0| < ctx.tol ∧ st.P.getD i false then true else st.R.getD i false)
  { P := Pn, R := Rn, d := dn, s := solveP ctx Pn, w := st.w, it := st.it + 1 }

/-- The inner feasibility loop, driven by a structural budget.  The
budget is always instantiated with itmax - it, so running out of budget
and failing the `it < itmax` guard coincide: the loop body runs exactly
while min(s restricted to the passive set) <= 0 and it < itmax, as in
the source (step C1). -/
def innerLoopF (ctx : NnlsCtx) : Nat → NnlsState → NnlsState
  | 0, st => st
  | b + 1, st =>
      if listMin (subsetVec ctx.M st.P st.s) ≤ 0 ∧ st.it < ctx.itmax then
        innerLoopF ctx b (innerStep ctx st)
      else st

/-- The inner feasibility loop of the source. -/
def innerLoop (ctx : NnlsCtx) (st : NnlsState) : NnlsState :=
  innerLoopF ctx (ctx.itmax - st.it) st

/-- One iteration of the main active-set loop (steps B2 to B6 of the
source): move the index with maximal gradient from active to passive,
solve on the passive set, run the inner feasibility loop, commit
d := s, and recompute the gradient with passive entries forced to -1. -/
def outerStep (ctx : NnlsCtx) (st : NnlsState) : NnlsState :=
  let m := argmaxL st.w
  let Pn := st.P.set m true
  let Rn := st.R.set m false
  let st1 := innerLoop ctx
    { P := Pn, R := Rn, d := st.d, s := solveP ctx Pn, w := st.w, it := st.it }
  let dn := st1.s
  let wn := (List.range ctx.M).map
    (fun i => if st1.R.getD i false then
        ctx.Ztx.getD i 0 - dotL (ctx.ZtZ.getD i []) dn
      else -1)
  { P := st1.P, R := st1.R, d := dn, s := st1.s, w := wn, it := st1.it }

/-- The main active-set loop (step B1 of the source): iterate while some
component is still active and the maximal gradient exceeds the
tolerance.  The C loop has no iteration cap of its own; the fuel
argument makes the embedding total and is instantiated large enough
that it never binds (each iteration deactivates one component, and
components are reactivated at most M per inner iteration, of which
there are at most itmax in total). -/
def outerLoop (ctx : NnlsCtx) : Nat → NnlsState → NnlsState
  | 0, st => st
  | fuel + 1, st =>
      if (st.R.any (fun x => x)) ∧ listMax st.w > ctx.tol then
        outerLoop ctx fuel (outerStep ctx st)
      else st

/-- Initial state of a constrained solve (steps A1 to A4 of the
source): all components active, d = 0, gradient w = Ztx. -/
def nnlsInit (ctx : NnlsCtx) : NnlsState :=
  let d0 : List ℚ := List.replicate ctx.M 0
  { P := List.replicate ctx.M false
    R := List.replicate ctx.M true
    d := d0
    s := List.replicate ctx.M 0
    w := (List.range ctx.M).map (fun i => ctx.Ztx.getD i 0 - dotL (ctx.ZtZ.getD i []) d0)
    it := 0 }

/-- A full constrained (non-negative) solve for one spectrum. -/
def nnlsSolve (ctx : NnlsCtx) : NnlsState :=
  outerLoop ctx (ctx.M * (ctx.itmax + 1) + 1) (nnlsInit ctx)

/-- Result of the per-pixel unmixing: fraction vector d, inner
iteration count it, and the residual sum of squares rsum together with
the row count L used for the mean. -/
structure SmaResult where
  d : List ℚ
  it : Nat
  rsum : ℚ
  L : Nat

/-- Per-pixel spectral mixture analysis in exact arithmetic, following
index_unmixed: build Z from the endmember table (with an appended row
of ones when sum-to-one is requested), the spectrum x (with an appended
1), the crossproducts ZtZ and Ztx, then solve unconstrained by matrix
inversion or constrained by the active-set algorithm, and compute the
residual sum of squares of the reconstruction. -/
def smaPixel (pos sto : Bool) (nb ne : Nat) (tab : List (List ℚ))
    (spec : List ℚ) : SmaResult :=
  let M := ne
  let L := if sto then nb + 1 else nb
  let Z : List (List ℚ) := (tab.take nb) ++ (if sto then [List.replicate M 1] else [])
  let x : List ℚ := (spec.take nb) ++ (if sto then [(1 : ℚ)] else [])
  let Zt := transposeL M Z
  let ZtZ := Zt.map (fun ri => Zt.map (fun rj => dotL ri rj))
  let Ztx := Zt.map (fun ri => dotL ri x)
  let itmax := 30 * M
  let dres : List ℚ × Nat :=
    if pos then
      let fin := nnlsSolve { M := M, ZtZ := ZtZ, Ztx := Ztx, tol := smaTol, itmax := itmax }
      (fin.d, fin.it)
    else
      (cramerSolve ZtZ Ztx, 0)
  let rsum := ((List.range L).map
    (fun i => let dsum := dotL (Z.getD i []) dres.1
              (x.getD i 0 - dsum) * (x.getD i 0 - dsum))).sum
  { d := dres.1, it := dres.2, rsum := rsum, L := L }

/-- Optional shade normalization (the last endmember is shade): scale
every other fraction by 1/(1 - shade fraction) and zero the shade
fraction. -/
def shadeNorm (d : List ℚ) : List ℚ :=
  match d with
  | [] => []
  | _ =>
      let f : ℚ := 1 / (1 - d.getD (d.length - 1) 0)
      (d.take (d.length - 1)).map (fun q => q * f) ++ [0]

/-- The SMA parameter block: positivity constraint, sum-to-one,
shade normalization, residual output, and the 1-based index of the
fraction to retain. -/
structure ParSma where
  pos : Bool
  sto : Bool
  shn : Bool
  orms : Bool
  emb : Nat

/-- The endmember auxiliary object: band count nb, material count ne,
and the (band x material) spectral table. -/
structure AuxEmb where
  nb : Nat
  ne : Nat
  tab : List (List ℚ)

/-- The spectrum of cell p at date t handed to the solver: the first nb
bands of the ARD, divided by the scale 10000. -/
def smaSpectrum (dat : Nat → Nat → Nat → ℤ) (nb t p : Nat) : List ℚ :=
  (List.range nb).map (fun i => (dat t i p : ℚ) / 10000)

/-- The fraction vector retained for output at cell p, date t: the
solver result, shade-normalized when requested. -/
def smaFractions (sma : ParSma) (em : AuxEmb)
    (dat : Nat → Nat → Nat → ℤ) (t p : Nat) : List ℚ :=
  let res := smaPixel sma.pos sma.sto em.nb em.ne em.tab (smaSpectrum dat em.nb t p)
  if sma.shn then shadeNorm res.d else res.d

/-- index_unmixed, time-series plane: the quantized value of the
caller-selected fraction, nodata at masked cells and invalid dates. -/
def index_unmixed_tss (dat : Nat → Nat → Nat → ℤ) (msk : Nat → Nat → Bool)
    (mask : Option (Nat → Bool)) (nc nt : Nat) (nodata : ℤ)
    (sma : ParSma) (em : AuxEmb) (tss0 : Nat → Nat → ℤ) : Nat → Nat → ℤ :=
  fun t p =>
    if p < nc ∧ t < nt then
      if maskedOut mask p then nodata
      else if !(msk t p) then nodata
      else castShort ((smaFractions sma em dat t p).getD (sma.emb - 1) 0 * 10000)
    else tss0 t p

/-- index_unmixed, residual plane: the masked-cell branch of the source
writes only the time series and leaves the residual array untouched;
with residual output off nothing is written either.  For an unmasked
cell and an invalid date the residual is set to nodata; for a valid
date it is the quantized root mean square reconstruction error. -/
noncomputable def index_unmixed_rms (dat : Nat → Nat → Nat → ℤ) (msk : Nat → Nat → Bool)
    (mask : Option (Nat → Bool)) (nc nt : Nat) (nodata : ℤ)
    (sma : ParSma) (em : AuxEmb) (rms0 : Nat → Nat → ℤ) : Nat → Nat → ℤ :=
  fun t p =>
    if p < nc ∧ t < nt then
      if maskedOut mask p then rms0 t p
      else if !(msk t p) then (if sma.orms then nodata else rms0 t p)
      else if sma.orms then
        let res := smaPixel sma.pos sma.sto em.nb em.ne em.tab (smaSpectrum dat em.nb t p)
        truncR (Real.sqrt ((res.rsum / (res.L : ℚ) : ℚ) : ℝ) * 10000)
      else rms0 t p
    else rms0 t p

/-- Sensor parameters: the Band Configuration mapping semantic band
names to array indices, plus the wavelength constants used by the
continuum removal index. -/
structure ParSen where
  blue : Nat
  green : Nat
  red : Nat
  nir : Nat
  swir0 : Nat
  swir1 : Nat
  swir2 : Nat
  rededge1 : Nat
  rededge2 : Nat
  rededge3 : Nat
  bnir : Nat
  vv : Nat
  vh : Nat
  w_nir : ℚ
  w_swir1 : ℚ
  w_swir2 : ℚ

/-- The requested index identifier, one constructor per case label of
the dispatch switch in tsa_spectral_index; `unknown` stands for any
identifier that matches none of the case labels (the default branch). -/
inductive IdxKind where
  | blu | grn | red | nir | sw0 | sw1 | sw2 | re1 | re2 | re3 | bnr
  | ndv | evi | nbr | arv | sav | srv | tcb | tcg | tcw | tcd
  | ndb | ndw | mnw | nds | sma | bvv | bvh | ndt | ndm | knv
  | nd1 | nd2 | cre | nr1 | nr2 | nr3 | n1n | n2n | n3n
  | mre | mrn | cci | ev2 | csw
  | unknown
  deriving DecidableEq

/-- Modelled from the spec: the SUCCESS status constant comes from
const-cl.h, which is not under src/; the dispatcher returns it on every
path and its numeric value is immaterial to the claims. -/
def SUCCESS : ℤ := 1

/-- tsa_spectral_index: dispatch the requested identifier to its kernel
with the band arguments bound from the sensor parameters, and return
the status together with the new contents of the time-series and
residual output planes.  The default branch of the switch reports the
unknown identifier and performs no write, and the function returns
SUCCESS unconditionally.  The cite_me side effects have no influence on
the outputs and are not modelled. -/
noncomputable def tsa_spectral_index (dat : Nat → Nat → Nat → ℤ) (msk : Nat → Nat → Bool)
    (mask : Option (Nat → Bool)) (nc nt : Nat) (idx : IdxKind) (nodata : ℤ)
    (sma : ParSma) (sen : ParSen) (em : AuxEmb)
    (tss0 rms0 : Nat → Nat → ℤ) : ℤ × (Nat → Nat → ℤ) × (Nat → Nat → ℤ) :=
  (SUCCESS,
    match idx with
    | .blu => (index_band dat msk mask sen.blue nc nt nodata tss0, rms0)
    | .grn => (index_band dat msk mask sen.green nc nt nodata tss0, rms0)
    | .red => (index_band dat msk mask sen.red nc nt nodata tss0, rms0)
    | .nir => (index_band dat msk mask sen.nir nc nt nodata tss0, rms0)
    | .sw0 => (index_band dat msk mask sen.swir0 nc nt nodata tss0, rms0)
    | .sw1 => (index_band dat msk mask sen.swir1 nc nt nodata tss0, rms0)
    | .sw2 => (index_band dat msk mask sen.swir2 nc nt nodata tss0, rms0)
    | .re1 => (index_band dat msk mask sen.rededge1 nc nt nodata tss0, rms0)
    | .re2 => (index_band dat msk mask sen.rededge2 nc nt nodata tss0, rms0)
    | .re3 => (index_band dat msk mask sen.rededge3 nc nt nodata tss0, rms0)
    | .bnr => (index_band dat msk mask sen.bnir nc nt nodata tss0, rms0)
    | .ndv => (index_differenced dat msk mask sen.nir sen.red nc nt nodata tss0, rms0)
    | .evi => (index_resistance dat msk mask sen.nir sen.red sen.blue
        2.5 6.0 7.5 1.0 false nc nt nodata tss0, rms0)
    | .nbr => (index_differenced dat msk mask sen.nir sen.swir2 nc nt nodata tss0, rms0)
    | .arv => (index_resistance dat msk mask sen.nir sen.red sen.blue
        1.0 1.0 0.0 0.0 true nc nt nodata tss0, rms0)
    | .sav => (index_resistance dat msk mask sen.nir sen.red sen.blue
        1.5 1.0 0.0 0.5 false nc nt nodata tss0, rms0)
    | .srv => (index_resistance dat msk mask sen.nir sen.red sen.blue
        1.5 1.0 0.0 0.5 true nc nt nodata tss0, rms0)
    | .tcb => (index_tasseled dat msk mask TCB sen.blue sen.green sen.red
        sen.nir sen.swir1 sen.swir2 nc nt nodata tss0, rms0)
    | .tcg => (index_tasseled dat msk mask TCG sen.blue sen.green sen.red
        sen.nir sen.swir1 sen.swir2 nc nt nodata tss0, rms0)
    | .tcw => (index_tasseled dat msk mask TCW sen.blue sen.green sen.red
        sen.nir sen.swir1 sen.swir2 nc nt nodata tss0, rms0)
    | .tcd => (index_tasseled dat msk mask TCD sen.blue sen.green sen.red
        sen.nir sen.swir1 sen.swir2 nc nt nodata tss0, rms0)
    | .ndb => (index_differenced dat msk mask sen.swir1 sen.nir nc nt nodata tss0, rms0)
    | .ndw => (index_differenced dat msk mask sen.green sen.nir nc nt nodata tss0, rms0)
    | .mnw => (index_differenced dat msk mask sen.green sen.swir1 nc nt nodata tss0, rms0)
    | .nds => (index_differenced dat msk mask sen.green sen.swir1 nc nt nodata tss0, rms0)
    | .sma => (index_unmixed_tss dat msk mask nc nt nodata sma em tss0,
        index_unmixed_rms dat msk mask nc nt nodata sma em rms0)
    | .bvv => (index_band dat msk mask sen.vv nc nt nodata tss0, rms0)
    | .bvh => (index_band dat msk mask sen.vh nc nt nodata tss0, rms0)
    | .ndt => (index_differenced dat msk mask sen.swir1 sen.swir2 nc nt nodata tss0, rms0)
    | .ndm => (index_differenced dat msk mask sen.nir sen.swir1 nc nt nodata tss0, rms0)
    | .knv => (index_kernelized dat msk mask sen.nir sen.red nc nt nodata tss0, rms0)
    | .nd1 => (index_differenced dat msk mask sen.rededge2 sen.rededge1 nc nt nodata tss0, rms0)
    | .nd2 => (index_differenced dat msk mask sen.rededge3 sen.rededge1 nc nt nodata tss0, rms0)
    | .cre => (index_ratio_minus1 dat msk mask sen.rededge3 sen.rededge1 nc nt nodata tss0, rms0)
    | .nr1 => (index_differenced dat msk mask sen.bnir sen.rededge1 nc nt nodata tss0, rms0)
    | .nr2 => (index_differenced dat msk mask sen.bnir sen.rededge2 nc nt nodata tss0, rms0)
    | .nr3 => (index_differenced dat msk mask sen.bnir sen.rededge3 nc nt nodata tss0, rms0)
    | .n1n => (index_differenced dat msk mask sen.nir sen.rededge1 nc nt nodata tss0, rms0)
    | .n2n => (index_differenced dat msk mask sen.nir sen.rededge2 nc nt nodata tss0, rms0)
    | .n3n => (index_differenced dat msk mask sen.nir sen.rededge3 nc nt nodata tss0, rms0)
    | .mre => (index_msrre dat msk mask sen.bnir sen.rededge1 nc nt nodata tss0, rms0)
    | .mrn => (index_msrre dat msk mask sen.nir sen.rededge1 nc nt nodata tss0, rms0)
    | .cci => (index_differenced dat msk mask sen.green sen.red nc nt nodata tss0, rms0)
    | .ev2 => (index_resistance dat msk mask sen.nir sen.red sen.red
        2.4 1.0 0.0 1.0 false nc nt nodata tss0, rms0)
    | .csw => (index_cont_remove dat msk mask sen.swir1 sen.nir sen.swir2
        sen.w_swir1 sen.w_nir sen.w_swir2 nc nt nodata tss0, rms0)
    | .unknown => (tss0, rms0))

/-- getD of a mapped range at an index in range. -/
theorem getD_range_map {α : Type} (f : Nat → α) (d : α) {n i : Nat} (h : i < n) :
    ((List.range n).map f).getD i d = f i := by
  simp [List.getD_eq_getElem?_getD, List.getElem?_map, List.getElem?_range, h]

/-- getD past the end of a list returns the default. -/
theorem getD_len_le {α : Type} (l : List α) (d : α) {i : Nat} (h : l.length ≤ i) :
    l.getD i d = d := by
  simp [List.getD_eq_getElem?_getD, List.getElem?_eq_none h]

/-- getD of a replicated zero list is zero at every index. -/
theorem getD_replicate_zero (n i : Nat) : (List.replicate n (0 : ℚ)).getD i 0 = 0 := by
  by_cases h : i < n
  · simp [List.getD_eq_getElem?_getD, List.getElem?_replicate, h]
  · exact getD_len_le _ _ (by simpa using Nat.le_of_not_lt h)

/-- A left fold with min is bounded by its initial value. -/
theorem foldl_min_le_init (l : List ℚ) (a : ℚ) : l.foldl min a ≤ a := by
  induction l generalizing a with
  | nil => exact le_refl a
  | cons x xs ih => exact le_trans (ih (min a x)) (min_le_left a x)

/-- A left fold with min is bounded by every member of the list. -/
theorem foldl_min_le_mem {l : List ℚ} {q : ℚ} (a : ℚ) (h : q ∈ l) : l.foldl min a ≤ q := by
  induction l generalizing a with
  | nil => cases h
  | cons x xs ih =>
      rcases List.mem_cons.mp h with h1 | h2
      · subst h1
        exact le_trans (foldl_min_le_init xs (min a q)) (min_le_right a q)
      · exact ih (min a x) h2

/-- listMin is a lower bound of the list. -/
theorem listMin_le {l : List ℚ} {q : ℚ} (h : q ∈ l) : listMin l ≤ q := by
  cases l with
  | nil => cases h
  | cons x xs =>
      rcases List.mem_cons.mp h with h1 | h2
      · subst h1; exact foldl_min_le_init xs q
      · exact foldl_min_le_mem x h2

/-- The entry of v at a passive position inside range is a member of
the passive subset. -/
theorem mem_subsetVec {m i : Nat} (P : List Bool) (v : List ℚ) (him : i < m)
    (hP : P.getD i false = true) : v.getD i 0 ∈ subsetVec m P v := by
  unfold subsetVec
  rw [List.mem_filterMap]
  refine ⟨i, List.mem_range.mpr him, ?_⟩
  simp only [hP, if_true]

/-- Entries of a scattered subset vector: subset entry at passive
positions in range, zero everywhere else. -/
theorem scatter_getD (m : Nat) (P : List Bool) (v : List ℚ) (i : Nat) :
    (scatter m P v).getD i 0 =
      if i < m then (if P.getD i false then v.getD (countT P i) 0 else 0) else 0 := by
  unfold scatter
  by_cases h : i < m
  · rw [getD_range_map _ _ h, if_pos h]
  · rw [getD_len_le, if_neg h]
    simp [Nat.le_of_not_lt h]

/-- A restricted solution whose passive entries all exceed zero is
non-negative in every component. -/
theorem solveP_nonneg (ctx : NnlsCtx) (P : List Bool)
    (hmin : 0 < listMin (subsetVec ctx.M P (solveP ctx P))) :
    ∀ i, 0 ≤ (solveP ctx P).getD i 0 := by
  intro i
  by_cases h1 : i < ctx.M
  · by_cases h2 : P.getD i false = true
    · exact le_of_lt (lt_of_lt_of_le hmin (listMin_le (mem_subsetVec P _ h1 h2)))
    · have : (solveP ctx P).getD i 0 = 0 := by
        unfold solveP
        rw [scatter_getD, if_pos h1, if_neg h2]
      rw [this]
  · have : (solveP ctx P).getD i 0 = 0 := by
      unfold solveP
      rw [scatter_getD, if_neg h1]
    rw [this]

/-- The inner step advances the iteration counter by one. -/
theorem innerStep_it (ctx : NnlsCtx) (st : NnlsState) :
    (innerStep ctx st).it = st.it + 1 := rfl

/-- The inner step leaves the candidate equal to the restricted
solution of its own passive set. -/
theorem innerStep_shape (ctx : NnlsCtx) (st : NnlsState) :
    (innerStep ctx st).s = solveP ctx (innerStep ctx st).P := rfl

/-- Invariants of the inner feasibility loop, driven by the budget:
the iteration counter never passes itmax, the candidate stays the
restricted solution of the passive set, and on exit with budget left
the passive candidate entries all exceed zero. -/
theorem innerLoopF_spec (ctx : NnlsCtx) :
    ∀ (b : Nat) (st : NnlsState), st.it + b = ctx.itmax → st.s = solveP ctx st.P →
      (innerLoopF ctx b st).it ≤ ctx.itmax ∧
      (innerLoopF ctx b st).s = solveP ctx (innerLoopF ctx b st).P ∧
      ((innerLoopF ctx b st).it < ctx.itmax →
        0 < listMin (subsetVec ctx.M (innerLoopF ctx b st).P (innerLoopF ctx b st).s)) := by
  intro b
  induction b with
  | zero =>
      intro st hit hs
      refine ⟨by simp [innerLoopF]; omega, by simp [innerLoopF, hs], ?_⟩
      intro h
      simp only [innerLoopF] at h
      omega
  | succ b ih =>
      intro st hit hs
      rw [show innerLoopF ctx (b + 1) st =
            (if listMin (subsetVec ctx.M st.P st.s) ≤ 0 ∧ st.it < ctx.itmax then
              innerLoopF ctx b (innerStep ctx st) else st) from rfl]
      by_cases h : listMin (subsetVec ctx.M st.P st.s) ≤ 0 ∧ st.it < ctx.itmax
      · rw [if_pos h]
        exact ih (innerStep ctx st) (by rw [innerStep_it]; omega) (innerStep_shape ctx st)
      · rw [if_neg h]
        refine ⟨by omega, hs, ?_⟩
        intro hlt
        rcases not_and_or.mp h with h1 | h2
        · exact lt_of_not_le h1
        · exact absurd hlt h2

/-- Invariants of the inner feasibility loop as called by the source,
with the budget instantiated to the remaining iterations. -/
theorem innerLoop_spec (ctx : NnlsCtx) (st : NnlsState) (hit : st.it ≤ ctx.itmax)
    (hs : st.s = solveP ctx st.P) :
    (innerLoop ctx st).it ≤ ctx.itmax ∧
    (innerLoop ctx st).s = solveP ctx (innerLoop ctx st).P ∧
    ((innerLoop ctx st).it < ctx.itmax →
      0 < listMin (subsetVec ctx.M (innerLoop ctx st).P (innerLoop ctx st).s)) :=
  innerLoopF_spec ctx (ctx.itmax - st.it) st (by omega) hs

/-- One main-loop iteration keeps the iteration counter within budget,
and produces a componentwise non-negative iterate whenever the budget
was not exhausted. -/
theorem outerStep_spec (ctx : NnlsCtx) (st : NnlsState) (hit : st.it ≤ ctx.itmax) :
    (outerStep ctx st).it ≤ ctx.itmax ∧
    ((outerStep ctx st).it < ctx.itmax → ∀ i, 0 ≤ (outerStep ctx st).d.getD i 0) := by
  obtain ⟨h1, h2, h3⟩ := innerLoop_spec ctx
    { P := st.P.set (argmaxL st.w) true
      R := st.R.set (argmaxL st.w) false
      d := st.d
      s := solveP ctx (st.P.set (argmaxL st.w) true)
      w := st.w
      it := st.it } hit rfl
  refine ⟨h1, fun hlt i => ?_⟩
  have h4 := solveP_nonneg ctx _ (h2 ▸ h3 hlt) i
  rw [← h2] at h4
  exact h4

/-- The main loop preserves the iteration-budget invariant and the
non-negativity of the iterate while the budget is not exhausted. -/
theorem outerLoop_inv (ctx : NnlsCtx) :
    ∀ (fuel : Nat) (st : NnlsState), st.it ≤ ctx.itmax →
      (st.it < ctx.itmax → ∀ i, 0 ≤ st.d.getD i 0) →
      (outerLoop ctx fuel st).it ≤ ctx.itmax ∧
      ((outerLoop ctx fuel st).it < ctx.itmax →
        ∀ i, 0 ≤ (outerLoop ctx fuel st).d.getD i 0) := by
  intro fuel
  induction fuel with
  | zero => intro st h1 h2; exact ⟨h1, h2⟩
  | succ f ih =>
      intro st h1 h2
      rw [show outerLoop ctx (f + 1) st =
            (if (st.R.any (fun x => x)) ∧ listMax st.w > ctx.tol then
              outerLoop ctx f (outerStep ctx st) else st) from rfl]
      by_cases h : (st.R.any (fun x => x)) ∧ listMax st.w > ctx.tol
      · rw [if_pos h]
        exact ih (outerStep ctx st) (outerStep_spec ctx st h1).1 (outerStep_spec ctx st h1).2
      · rw [if_neg h]
        exact ⟨h1, h2⟩

/-- The iteration counter of a full constrained solve never exceeds
itmax. -/
theorem nnlsSolve_it_le (ctx : NnlsCtx) : (nnlsSolve ctx).it ≤ ctx.itmax :=
  (outerLoop_inv ctx (ctx.M * (ctx.itmax + 1) + 1) (nnlsInit ctx) (Nat.zero_le _)
    (fun _ i => le_of_eq (getD_replicate_zero ctx.M i).symm)).1

/-- The per-pixel iteration count is bounded by 30 times the material
count, in both solver modes. -/
theorem smaPixel_it_le (pos sto : Bool) (nb ne : Nat) (tab : List (List ℚ))
    (spec : List ℚ) : (smaPixel pos sto nb ne tab spec).it ≤ 30 * ne := by
  cases pos
  · exact Nat.zero_le _
  · exact nnlsSolve_it_le _

/-- C10: the dispatcher tsa_spectral_index returns SUCCESS for every
input, including requests naming an unknown index identifier; the
return value never signals failure. -/
theorem tsa_spectral_index_always_success (dat : Nat → Nat → Nat → ℤ)
    (msk : Nat → Nat → Bool) (mask : Option (Nat → Bool)) (nc nt : Nat)
    (idx : IdxKind) (nodata : ℤ) (sma : ParSma) (sen : ParSen) (em : AuxEmb)
    (tss0 rms0 : Nat → Nat → ℤ) :
    (tsa_spectral_index dat msk mask nc nt idx nodata sma sen em tss0 rms0).1 = SUCCESS := rfl

/-- C4 (amended): for an unknown index identifier the dispatcher
performs no write at all: the output planes are returned unchanged
(they are entirely nodata only if the caller filled them with nodata
beforehand), the identifier is reported on the side, and the call
returns SUCCESS so that processing continues with the remaining
requested identifiers. -/
theorem tsa_spectral_index_unknown_unchanged (dat : Nat → Nat → Nat → ℤ)
    (msk : Nat → Nat → Bool) (mask : Option (Nat → Bool)) (nc nt : Nat)
    (nodata : ℤ) (sma : ParSma) (sen : ParSen) (em : AuxEmb)
    (tss0 rms0 : Nat → Nat → ℤ) :
    tsa_spectral_index dat msk mask nc nt IdxKind.unknown nodata sma sen em tss0 rms0 =
      (SUCCESS, tss0, rms0) := rfl

/-- C4 counterexample: dispatching an unknown identifier over an output
plane that holds 42 leaves 42 in place, so the output array does not
end up entirely filled with the nodata sentinel -9999. -/
theorem tsa_spectral_index_unknown_not_nodata :
    (tsa_spectral_index (fun _ _ _ => 0) (fun _ _ => true) none 1 1 IdxKind.unknown (-9999)
      { pos := true, sto := false, shn := false, orms := false, emb := 1 }
      { blue := 0, green := 1, red := 2, nir := 3, swir0 := 4, swir1 := 5, swir2 := 6,
        rededge1 := 7, rededge2 := 8, rededge3 := 9, bnir := 10, vv := 11, vh := 12,
        w_nir := 0.86, w_swir1 := 1.6, w_swir2 := 2.2 }
      { nb := 1, ne := 1, tab := [[1]] }
      (fun _ _ => 42) (fun _ _ => 0)).2.1 0 0 = 42 ∧ (42 : ℤ) ≠ -9999 :=
  ⟨rfl, by decide⟩

/-- C7: the inner feasibility loop of the constrained solver executes
at most 30 M iterations per (cell, date), and exhaustion is never
surfaced as an error: for every unmasked cell and valid date the kernel
still writes the quantized selected fraction to the output. -/
theorem sma_iteration_budget :
    (∀ (pos sto : Bool) (nb ne : Nat) (tab : List (List ℚ)) (spec : List ℚ),
       (smaPixel pos sto nb ne tab spec).it ≤ 30 * ne) ∧
    (∀ (dat : Nat → Nat → Nat → ℤ) (msk : Nat → Nat → Bool) (mask : Option (Nat → Bool))
       (nc nt : Nat) (nodata : ℤ) (sma : ParSma) (em : AuxEmb) (tss0 : Nat → Nat → ℤ)
       (t p : Nat), p < nc → t < nt → maskedOut mask p = false → msk t p = true →
       index_unmixed_tss dat msk mask nc nt nodata sma em tss0 t p =
         castShort ((smaFractions sma em dat t p).getD (sma.emb - 1) 0 * 10000)) := by
  constructor
  · exact fun pos sto nb ne tab spec => smaPixel_it_le pos sto nb ne tab spec
  · intro dat msk mask nc nt nodata sma em tss0 t p hp ht hm hv
    unfold index_unmixed_tss
    rw [if_pos ⟨hp, ht⟩, hm, hv]
    rfl

/-- C7 witness: the one-material pixel stays within the budget of 30,
and at an unmasked cell with a valid date the kernel writes the
quantized selected fraction. -/
theorem sma_iteration_budget_witness :
    (smaPixel true true 1 1 [[1]] (smaSpectrum (fun _ _ _ => 3000) 1 0 0)).it ≤ 30 * 1 ∧
    index_unmixed_tss (fun _ _ _ => 3000) (fun _ _ => true) none 1 1 (-9999)
      { pos := true, sto := true, shn := false, orms := false, emb := 1 }
      { nb := 1, ne := 1, tab := [[1]] } (fun _ _ => 0) 0 0 =
      castShort ((smaFractions { pos := true, sto := true, shn := false, orms := false, emb := 1 }
        { nb := 1, ne := 1, tab := [[1]] } (fun _ _ => 3000) 0 0).getD 0 0 * 10000) :=
  ⟨sma_iteration_budget.1 true true 1 1 [[1]] _,
   sma_iteration_budget.2 (fun _ _ _ => 3000) (fun _ _ => true) none 1 1 (-9999)
     { pos := true, sto := true, shn := false, orms := false, emb := 1 }
     { nb := 1, ne := 1, tab := [[1]] } (fun _ _ => 0) 0 0
     (by decide) (by decide) rfl rfl⟩

/-- At an in-range unmasked cell the normalized-difference kernel
writes its per-date value. -/
theorem index_differenced_unmasked (dat : Nat → Nat → Nat → ℤ) (msk : Nat → Nat → Bool)
    (mask : Option (Nat → Bool)) (b1 b2 nc nt : Nat) (nodata : ℤ)
    (tss0 : Nat → Nat → ℤ) (t p : Nat) (hp : p < nc) (ht : t < nt)
    (hm : maskedOut mask p = false) :
    index_differenced dat msk mask b1 b2 nc nt nodata tss0 t p =
      index_differenced_val dat msk b1 b2 nodata t p := by
  unfold index_differenced
  rw [if_pos ⟨hp, ht⟩, hm]
  rfl

/-- At an in-range unmasked cell the ratio-minus-one kernel writes its
per-date value. -/
theorem index_ratio_minus1_unmasked (dat : Nat → Nat → Nat → ℤ) (msk : Nat → Nat → Bool)
    (mask : Option (Nat → Bool)) (b1 b2 nc nt : Nat) (nodata : ℤ)
    (tss0 : Nat → Nat → ℤ) (t p : Nat) (hp : p < nc) (ht : t < nt)
    (hm : maskedOut mask p = false) :
    index_ratio_minus1 dat msk mask b1 b2 nc nt nodata tss0 t p =
      index_ratio_minus1_val dat msk b1 b2 nodata t p := by
  unfold index_ratio_minus1
  rw [if_pos ⟨hp, ht⟩, hm]
  rfl

/-- At an in-range unmasked cell the continuum-removal kernel writes
its per-date value. -/
theorem index_cont_remove_unmasked (dat : Nat → Nat → Nat → ℤ) (msk : Nat → Nat → Bool)
    (mask : Option (Nat → Bool)) (b0 b1 b2 : Nat) (w0 w1 w2 : ℚ) (nc nt : Nat)
    (nodata : ℤ) (tss0 : Nat → Nat → ℤ) (t p : Nat) (hp : p < nc) (ht : t < nt)
    (hm : maskedOut mask p = false) :
    index_cont_remove dat msk mask b0 b1 b2 w0 w1 w2 nc nt nodata tss0 t p =
      index_cont_remove_val dat msk b0 b1 b2 w0 w1 w2 nodata t p := by
  unfold index_cont_remove
  rw [if_pos ⟨hp, ht⟩, hm]
  rfl

/-- At an in-range unmasked cell the resistance kernel writes its
per-date value. -/
theorem index_resistance_unmasked (dat : Nat → Nat → Nat → ℤ) (msk : Nat → Nat → Bool)
    (mask : Option (Nat → Bool)) (n r b : Nat) (f1 f2 f3 f4 : ℚ) (rbc : Bool)
    (nc nt : Nat) (nodata : ℤ) (tss0 : Nat → Nat → ℤ) (t p : Nat)
    (hp : p < nc) (ht : t < nt) (hm : maskedOut mask p = false) :
    index_resistance dat msk mask n r b f1 f2 f3 f4 rbc nc nt nodata tss0 t p =
      index_resistance_val dat msk n r b f1 f2 f3 f4 rbc nodata t p := by
  unfold index_resistance
  rw [if_pos ⟨hp, ht⟩, hm]
  rfl

/-- At an in-range unmasked cell the tasseled-cap kernel writes its
per-date value. -/
theorem index_tasseled_unmasked (dat : Nat → Nat → Nat → ℤ) (msk : Nat → Nat → Bool)
    (mask : Option (Nat → Bool)) (ty blue green red nir sw1 sw2 nc nt : Nat)
    (nodata : ℤ) (tss0 : Nat → Nat → ℤ) (t p : Nat)
    (hp : p < nc) (ht : t < nt) (hm : maskedOut mask p = false) :
    index_tasseled dat msk mask ty blue green red nir sw1 sw2 nc nt nodata tss0 t p =
      index_tasseled_val dat msk ty blue green red nir sw1 sw2 nodata t p := by
  unfold index_tasseled
  rw [if_pos ⟨hp, ht⟩, hm]
  rfl

/-- At an in-range unmasked cell the MSRre kernel writes its per-date
value. -/
theorem index_msrre_unmasked (dat : Nat → Nat → Nat → ℤ) (msk : Nat → Nat → Bool)
    (mask : Option (Nat → Bool)) (b1 b2 nc nt : Nat) (nodata : ℤ)
    (tss0 : Nat → Nat → ℤ) (t p : Nat) (hp : p < nc) (ht : t < nt)
    (hm : maskedOut mask p = false) :
    index_msrre dat msk mask b1 b2 nc nt nodata tss0 t p =
      index_msrre_val dat msk b1 b2 nodata t p := by
  unfold index_msrre
  rw [if_pos ⟨hp, ht⟩, hm]
  rfl

/-- C1: for the normalized-difference kernel, at every in-range
unmasked cell and valid date: if b1+b2 is nonzero and the ratio
(b1-b2)/(b1+b2) has magnitude at most 1, the written output is the
ratio times 10000 truncated toward zero; otherwise it is the nodata
sentinel.  In particular b1 = 5000, b2 = 3000 gives 2500. -/
theorem index_differenced_correct :
    (∀ (dat : Nat → Nat → Nat → ℤ) (msk : Nat → Nat → Bool) (mask : Option (Nat → Bool))
       (b1 b2 nc nt : Nat) (nodata : ℤ) (tss0 : Nat → Nat → ℤ) (t p : Nat),
       p < nc → t < nt → maskedOut mask p = false → msk t p = true →
       (((dat t b1 p : ℚ) + (dat t b2 p : ℚ) ≠ 0 ∧
           |((dat t b1 p : ℚ) - (dat t b2 p : ℚ)) / ((dat t b1 p : ℚ) + (dat t b2 p : ℚ))| ≤ 1 →
           index_differenced dat msk mask b1 b2 nc nt nodata tss0 t p =
             truncQ (((dat t b1 p : ℚ) - (dat t b2 p : ℚ)) /
               ((dat t b1 p : ℚ) + (dat t b2 p : ℚ)) * 10000)) ∧
        (¬ ((dat t b1 p : ℚ) + (dat t b2 p : ℚ) ≠ 0 ∧
             |((dat t b1 p : ℚ) - (dat t b2 p : ℚ)) / ((dat t b1 p : ℚ) + (dat t b2 p : ℚ))| ≤ 1) →
           index_differenced dat msk mask b1 b2 nc nt nodata tss0 t p = nodata))) ∧
    index_differenced (fun _ b _ => if b = 0 then 5000 else 3000) (fun _ _ => true)
      none 0 1 1 1 (-9999) (fun _ _ => 0) 0 0 = 2500 := by
  constructor
  · intro dat msk mask b1 b2 nc nt nodata tss0 t p hp ht hm hv
    rw [index_differenced_unmasked dat msk mask b1 b2 nc nt nodata tss0 t p hp ht hm]
    unfold index_differenced_val
    rw [hv]
    simp only [Bool.not_true, Bool.false_eq_true, if_false]
    constructor
    · rintro ⟨hne, habs⟩
      rw [if_neg]
      · rfl
      · push_neg
        exact ⟨hne, (abs_le.mp habs).1, (abs_le.mp habs).2⟩
    · intro hn
      rw [if_pos]
      by_cases hz : (dat t b1 p : ℚ) + (dat t b2 p : ℚ) = 0
      · exact Or.inl hz
      · right
        have habs : ¬ |((dat t b1 p : ℚ) - (dat t b2 p : ℚ)) /
            ((dat t b1 p : ℚ) + (dat t b2 p : ℚ))| ≤ 1 := fun hle => hn ⟨hz, hle⟩
        rcases lt_abs.mp (lt_of_not_le habs) with h1 | h2
        · exact Or.inr h1
        · exact Or.inl (by linarith)
  · with_unfolding_all decide

/-- C6: after shade normalization the shade fraction (the last
material) is exactly 0, every other fraction equals its
pre-normalization value times 1/(1 - original shade fraction), and the
quantized output of the shade fraction is exactly 0. -/
theorem shadeNorm_correct (d : List ℚ) (hd : d ≠ []) :
    (shadeNorm d).getD (d.length - 1) 0 = 0 ∧
    (∀ i, i < d.length - 1 →
      (shadeNorm d).getD i 0 = d.getD i 0 * (1 / (1 - d.getD (d.length - 1) 0))) ∧
    castShort ((shadeNorm d).getD (d.length - 1) 0 * 10000) = 0 := by
  cases d with
  | nil => exact absurd rfl hd
  | cons q qs =>
      have hsn : shadeNorm (q :: qs) =
          ((q :: qs).take ((q :: qs).length - 1)).map
            (fun z => z * (1 / (1 - (q :: qs).getD ((q :: qs).length - 1) 0))) ++ [0] := rfl
      have hlen : (((q :: qs).take ((q :: qs).length - 1)).map
          (fun z => z * (1 / (1 - (q :: qs).getD ((q :: qs).length - 1) 0)))).length =
          (q :: qs).length - 1 := by
        simp [List.length_take]
      have h1 : (shadeNorm (q :: qs)).getD ((q :: qs).length - 1) 0 = 0 := by
        rw [hsn, List.getD_eq_getElem?_getD, List.getElem?_append_right (le_of_eq hlen)]
        simp [hlen]
      refine ⟨h1, ?_, ?_⟩
      · intro i hi
        rw [hsn, List.getD_eq_getElem?_getD, List.getElem?_append,
          if_pos (show i < _ by rw [hlen]; exact hi)]
        rw [List.getElem?_map, List.getElem?_take, if_pos hi]
        have hi2 : i < (q :: qs).length := lt_of_lt_of_le hi (Nat.sub_le _ _)
        rw [List.getElem?_eq_getElem hi2]
        simp [List.getD_eq_getElem?_getD, List.getElem?_eq_getElem hi2]
      · rw [h1]
        with_unfolding_all decide

/-- C6 witness: for the fraction vector [1/2, 1/4] the normalized
shade fraction is 0 and the first fraction is scaled by 1/(1 - 1/4). -/
theorem shadeNorm_correct_witness :
    ([(1:ℚ)/2, 1/4] ≠ ([] : List ℚ)) ∧
    (shadeNorm [(1:ℚ)/2, 1/4]).getD 1 0 = 0 ∧
    (shadeNorm [(1:ℚ)/2, 1/4]).getD 0 0 = (1:ℚ)/2 * (1 / (1 - 1/4)) := by
  have hd : [(1:ℚ)/2, 1/4] ≠ ([] : List ℚ) := by simp
  have h := shadeNorm_correct [(1:ℚ)/2, 1/4] hd
  exact ⟨hd, h.1, h.2.1 0 (by decide)⟩

/-- C9: for the tasseled-cap transform at every in-range unmasked cell
and valid date, the brightness, greenness and wetness outputs are the
fixed 6-coefficient dot products over (blue, green, red, nir, swir1,
swir2) truncated to the output integer type, and the disturbance output
is brightness minus greenness minus wetness, truncated likewise. -/
theorem index_tasseled_correct (dat : Nat → Nat → Nat → ℤ) (msk : Nat → Nat → Bool)
    (mask : Option (Nat → Bool)) (blue green red nir sw1 sw2 nc nt : Nat)
    (nodata : ℤ) (tss0 : Nat → Nat → ℤ) (t p : Nat)
    (hp : p < nc) (ht : t < nt) (hm : maskedOut mask p = false) (hv : msk t p = true) :
    (index_tasseled dat msk mask TCB blue green red nir sw1 sw2 nc nt nodata tss0 t p =
      truncQ (tcDot 0 (dat t blue p : ℚ) (dat t green p : ℚ) (dat t red p : ℚ)
        (dat t nir p : ℚ) (dat t sw1 p : ℚ) (dat t sw2 p : ℚ))) ∧
    (index_tasseled dat msk mask TCG blue green red nir sw1 sw2 nc nt nodata tss0 t p =
      truncQ (tcDot 1 (dat t blue p : ℚ) (dat t green p : ℚ) (dat t red p : ℚ)
        (dat t nir p : ℚ) (dat t sw1 p : ℚ) (dat t sw2 p : ℚ))) ∧
    (index_tasseled dat msk mask TCW blue green red nir sw1 sw2 nc nt nodata tss0 t p =
      truncQ (tcDot 2 (dat t blue p : ℚ) (dat t green p : ℚ) (dat t red p : ℚ)
        (dat t nir p : ℚ) (dat t sw1 p : ℚ) (dat t sw2 p : ℚ))) ∧
    (index_tasseled dat msk mask TCD blue green red nir sw1 sw2 nc nt nodata tss0 t p =
      truncQ (tcDot 0 (dat t blue p : ℚ) (dat t green p : ℚ) (dat t red p : ℚ)
          (dat t nir p : ℚ) (dat t sw1 p : ℚ) (dat t sw2 p : ℚ) -
        tcDot 1 (dat t blue p : ℚ) (dat t green p : ℚ) (dat t red p : ℚ)
          (dat t nir p : ℚ) (dat t sw1 p : ℚ) (dat t sw2 p : ℚ) -
        tcDot 2 (dat t blue p : ℚ) (dat t green p : ℚ) (dat t red p : ℚ)
          (dat t nir p : ℚ) (dat t sw1 p : ℚ) (dat t sw2 p : ℚ))) := by
  refine ⟨?_, ?_, ?_, ?_⟩ <;>
    rw [index_tasseled_unmasked dat msk mask _ blue green red nir sw1 sw2 nc nt nodata
      tss0 t p hp ht hm] <;>
    unfold index_tasseled_val <;>
    rw [hv] <;>
    simp only [Bool.not_true, Bool.false_eq_true, if_false]
  · rw [if_neg (by decide : ¬ (TCB = TCD))]
    rfl
  · rw [if_neg (by decide : ¬ (TCG = TCD))]
    rfl
  · rw [if_neg (by decide : ¬ (TCW = TCD))]
    rfl
  · rw [if_pos trivial]
    rfl

/-- C9 witness: with every band at 1000 the brightness output is 2289
and the disturbance output is 3164. -/
theorem index_tasseled_correct_witness :
    index_tasseled (fun _ _ _ => 1000) (fun _ _ => true) none TCB 0 1 2 3 4 5 1 1
      (-9999) (fun _ _ => 0) 0 0 = 2289 ∧
    index_tasseled (fun _ _ _ => 1000) (fun _ _ => true) none TCD 0 1 2 3 4 5 1 1
      (-9999) (fun _ _ => 0) 0 0 = 3164 := by
  have h := index_tasseled_correct (fun _ _ _ => 1000) (fun _ _ => true) none 0 1 2 3 4 5 1 1
    (-9999) (fun _ _ => 0) 0 0 (by decide) (by decide) rfl rfl
  constructor
  · rw [h.1]
    with_unfolding_all decide
  · rw [h.2.2.2]
    with_unfolding_all decide

/-- C5 (amended): the range guard is not shared by all elementwise
kernels.  At an in-range unmasked cell with a valid date: the
ratio-minus-one kernel does write nodata when its scaled value leaves
the short range; but the resistance-weighted kernel writes the cast
value whenever its denominator is nonzero, and the continuum-removal
and tasseled-cap kernels always write the cast value - none of these
three checks the output range. -/
theorem range_check_behavior :
    (∀ (dat : Nat → Nat → Nat → ℤ) (msk : Nat → Nat → Bool) (mask : Option (Nat → Bool))
       (b1 b2 nc nt : Nat) (nodata : ℤ) (tss0 : Nat → Nat → ℤ) (t p : Nat),
       p < nc → t < nt → maskedOut mask p = false → msk t p = true →
       (((dat t b1 p : ℚ) / (dat t b2 p : ℚ) - 1) * 1000 > SHRT_MAX ∨
         ((dat t b1 p : ℚ) / (dat t b2 p : ℚ) - 1) * 1000 < SHRT_MIN) →
       index_ratio_minus1 dat msk mask b1 b2 nc nt nodata tss0 t p = nodata) ∧
    (∀ (dat : Nat → Nat → Nat → ℤ) (msk : Nat → Nat → Bool) (mask : Option (Nat → Bool))
       (n r b : Nat) (f1 f2 f3 f4 : ℚ) (rbc : Bool) (nc nt : Nat) (nodata : ℤ)
       (tss0 : Nat → Nat → ℤ) (t p : Nat),
       p < nc → t < nt → maskedOut mask p = false → msk t p = true →
       (dat t n p : ℚ) + f2 * ((dat t r p : ℚ) -
           (if rbc then (1 : ℚ) else 0) * ((dat t b p : ℚ) - (dat t r p : ℚ))) -
         f3 * (dat t b p : ℚ) + f4 * 10000 ≠ 0 →
       index_resistance dat msk mask n r b f1 f2 f3 f4 rbc nc nt nodata tss0 t p =
         castShort (f1 * ((dat t n p : ℚ) - ((dat t r p : ℚ) -
             (if rbc then (1 : ℚ) else 0) * ((dat t b p : ℚ) - (dat t r p : ℚ)))) /
           ((dat t n p : ℚ) + f2 * ((dat t r p : ℚ) -
             (if rbc then (1 : ℚ) else 0) * ((dat t b p : ℚ) - (dat t r p : ℚ))) -
            f3 * (dat t b p : ℚ) + f4 * 10000) * 10000)) ∧
    (∀ (dat : Nat → Nat → Nat → ℤ) (msk : Nat → Nat → Bool) (mask : Option (Nat → Bool))
       (b0 b1 b2 : Nat) (w0 w1 w2 : ℚ) (nc nt : Nat) (nodata : ℤ)
       (tss0 : Nat → Nat → ℤ) (t p : Nat),
       p < nc → t < nt → maskedOut mask p = false → msk t p = true →
       index_cont_remove dat msk mask b0 b1 b2 w0 w1 w2 nc nt nodata tss0 t p =
         castShort ((dat t b0 p : ℚ) -
           ((dat t b1 p : ℚ) * (w2 - w0) + (dat t b2 p : ℚ) * (w0 - w1)) / (w2 - w1))) ∧
    (∀ (dat : Nat → Nat → Nat → ℤ) (msk : Nat → Nat → Bool) (mask : Option (Nat → Bool))
       (ty blue green red nir sw1 sw2 nc nt : Nat) (nodata : ℤ)
       (tss0 : Nat → Nat → ℤ) (t p : Nat),
       p < nc → t < nt → maskedOut mask p = false → msk t p = true →
       index_tasseled dat msk mask ty blue green red nir sw1 sw2 nc nt nodata tss0 t p =
         castShort (if ty = TCD then
             tcDot 0 (dat t blue p : ℚ) (dat t green p : ℚ) (dat t red p : ℚ)
               (dat t nir p : ℚ) (dat t sw1 p : ℚ) (dat t sw2 p : ℚ) -
             tcDot 1 (dat t blue p : ℚ) (dat t green p : ℚ) (dat t red p : ℚ)
               (dat t nir p : ℚ) (dat t sw1 p : ℚ) (dat t sw2 p : ℚ) -
             tcDot 2 (dat t blue p : ℚ) (dat t green p : ℚ) (dat t red p : ℚ)
               (dat t nir p : ℚ) (dat t sw1 p : ℚ) (dat t sw2 p : ℚ)
           else tcDot ty (dat t blue p : ℚ) (dat t green p : ℚ) (dat t red p : ℚ)
               (dat t nir p : ℚ) (dat t sw1 p : ℚ) (dat t sw2 p : ℚ))) := by
  refine ⟨?_, ?_, ?_, ?_⟩
  · intro dat msk mask b1 b2 nc nt nodata tss0 t p hp ht hm hv hout
    rw [index_ratio_minus1_unmasked dat msk mask b1 b2 nc nt nodata tss0 t p hp ht hm]
    unfold index_ratio_minus1_val
    rw [hv]
    simp only [Bool.not_true, Bool.false_eq_true, if_false]
    rw [if_pos (Or.inr hout)]
  · intro dat msk mask n r b f1 f2 f3 f4 rbc nc nt nodata tss0 t p hp ht hm hv htmp
    rw [index_resistance_unmasked dat msk mask n r b f1 f2 f3 f4 rbc nc nt nodata
      tss0 t p hp ht hm]
    unfold index_resistance_val
    rw [hv]
    simp only [Bool.not_true, Bool.false_eq_true, if_false]
    rw [if_neg htmp]
  · intro dat msk mask b0 b1 b2 w0 w1 w2 nc nt nodata tss0 t p hp ht hm hv
    rw [index_cont_remove_unmasked dat msk mask b0 b1 b2 w0 w1 w2 nc nt nodata
      tss0 t p hp ht hm]
    unfold index_cont_remove_val
    rw [hv]
    simp only [Bool.not_true, Bool.false_eq_true, if_false]
  · intro dat msk mask ty blue green red nir sw1 sw2 nc nt nodata tss0 t p hp ht hm hv
    rw [index_tasseled_unmasked dat msk mask ty blue green red nir sw1 sw2 nc nt nodata
      tss0 t p hp ht hm]
    unfold index_tasseled_val
    rw [hv]
    simp only [Bool.not_true, Bool.false_eq_true, if_false]

/-- C5 witness: a concrete instantiation of each conjunct: a
ratio-minus-one overflow writes nodata, and the resistance,
continuum-removal and tasseled-cap kernels write the cast value at a
valid cell. -/
theorem range_check_behavior_witness :
    index_ratio_minus1 (fun _ b _ => if b = 0 then 32767 else 1) (fun _ _ => true) none
      0 1 1 1 (-9999) (fun _ _ => 0) 0 0 = -9999 ∧
    index_cont_remove (fun _ _ _ => 100) (fun _ _ => true) none 0 1 2 2 1 3 1 1
      (-9999) (fun _ _ => 0) 0 0 = 0 := by
  constructor
  · have h := range_check_behavior.1 (fun _ b _ => if b = 0 then 32767 else 1)
      (fun _ _ => true) none 0 1 1 1 (-9999) (fun _ _ => 0) 0 0
      (by decide) (by decide) rfl rfl (Or.inl (by with_unfolding_all decide))
    exact h
  · have h := range_check_behavior.2.2.1 (fun _ _ _ => 100) (fun _ _ => true) none
      0 1 2 2 1 3 1 1 (-9999) (fun _ _ => 0) 0 0 (by decide) (by decide) rfl rfl
    rw [h]
    with_unfolding_all decide

/-- C5 counterexample: with every band at 32767 the tasseled-cap
brightness value 75013.4931 exceeds SHRT_MAX, yet the kernel writes the
truncated value 75013 rather than the nodata sentinel -9999. -/
theorem index_tasseled_overflow_written :
    tcDot 0 (32767 : ℚ) 32767 32767 32767 32767 32767 > SHRT_MAX ∧
    index_tasseled (fun _ _ _ => 32767) (fun _ _ => true) none TCB 0 1 2 3 4 5 1 1
      (-9999) (fun _ _ => 0) 0 0 = 75013 ∧
    (75013 : ℤ) ≠ -9999 := by
  refine ⟨?_, ?_, ?_⟩ <;> with_unfolding_all decide

/-- C3: at the failing input - the spatial mask false at the only cell,
residual output enabled, previous residual contents 7 - the time series
is set to the nodata sentinel, but the residual entry keeps its
previous value 7, which differs from the sentinel -9999: the masked
branch of index_unmixed writes only the time series and leaves the
residual array untouched. -/
theorem sma_masked_residual_untouched :
    index_unmixed_tss (fun _ _ _ => 5000) (fun _ _ => true) (some (fun _ => false)) 1 1 (-9999)
      { pos := true, sto := false, shn := false, orms := true, emb := 1 }
      { nb := 1, ne := 1, tab := [[1]] } (fun _ _ => 0) 0 0 = -9999 ∧
    index_unmixed_rms (fun _ _ _ => 5000) (fun _ _ => true) (some (fun _ => false)) 1 1 (-9999)
      { pos := true, sto := false, shn := false, orms := true, emb := 1 }
      { nb := 1, ne := 1, tab := [[1]] } (fun _ _ => 7) 0 0 = 7 ∧
    (7 : ℤ) ≠ -9999 := by
  refine ⟨rfl, rfl, by decide⟩

/-- C8 (amended): for the normalized-ratio (MSRre) kernel at every
in-range unmasked cell and valid date: the written output is the nodata
sentinel when b2 = 0, when the radicand b1/b2 + 1 is exactly zero (the
only nonpositive radicand the lower == 0 guard catches), or when the
radicand is positive and the scaled value is outside the short range;
for a positive radicand and an in-range scaled value it is the
truncated scaled value; but for a strictly negative radicand the C
square root is NaN, no guard fires, and the kernel writes the
unspecified cast of NaN instead of the nodata sentinel. -/
theorem index_msrre_nodata_behavior (dat : Nat → Nat → Nat → ℤ) (msk : Nat → Nat → Bool)
    (mask : Option (Nat → Bool)) (b1 b2 nc nt : Nat) (nodata : ℤ)
    (tss0 : Nat → Nat → ℤ) (t p : Nat)
    (hp : p < nc) (ht : t < nt) (hm : maskedOut mask p = false) (hv : msk t p = true) :
    ((dat t b2 p = 0 ∨ (dat t b1 p : ℝ) / (dat t b2 p : ℝ) + 1 = 0 ∨
        (0 < (dat t b1 p : ℝ) / (dat t b2 p : ℝ) + 1 ∧
          (((dat t b1 p : ℝ) / (dat t b2 p : ℝ) - 1) /
              Real.sqrt ((dat t b1 p : ℝ) / (dat t b2 p : ℝ) + 1) * 10000 > 32767 ∨
            ((dat t b1 p : ℝ) / (dat t b2 p : ℝ) - 1) /
              Real.sqrt ((dat t b1 p : ℝ) / (dat t b2 p : ℝ) + 1) * 10000 < -32768))) →
      index_msrre dat msk mask b1 b2 nc nt nodata tss0 t p = nodata) ∧
    (dat t b2 p ≠ 0 → 0 < (dat t b1 p : ℝ) / (dat t b2 p : ℝ) + 1 →
      ¬ (((dat t b1 p : ℝ) / (dat t b2 p : ℝ) - 1) /
          Real.sqrt ((dat t b1 p : ℝ) / (dat t b2 p : ℝ) + 1) * 10000 > 32767) →
      ¬ (((dat t b1 p : ℝ) / (dat t b2 p : ℝ) - 1) /
          Real.sqrt ((dat t b1 p : ℝ) / (dat t b2 p : ℝ) + 1) * 10000 < -32768) →
      index_msrre dat msk mask b1 b2 nc nt nodata tss0 t p =
        truncR (((dat t b1 p : ℝ) / (dat t b2 p : ℝ) - 1) /
          Real.sqrt ((dat t b1 p : ℝ) / (dat t b2 p : ℝ) + 1) * 10000)) ∧
    (dat t b2 p ≠ 0 → (dat t b1 p : ℝ) / (dat t b2 p : ℝ) + 1 < 0 →
      index_msrre dat msk mask b1 b2 nc nt nodata tss0 t p = nanCastShort) := by
  rw [index_msrre_unmasked dat msk mask b1 b2 nc nt nodata tss0 t p hp ht hm]
  unfold index_msrre_val
  rw [hv]
  simp only [Bool.not_true, Bool.false_eq_true, if_false]
  refine ⟨?_, ?_, ?_⟩
  · rintro (hz | hrad0 | ⟨hradpos, hout⟩)
    · rw [if_neg (not_not_intro hz)]
    · by_cases hz2 : dat t b2 p = 0
      · rw [if_neg (not_not_intro hz2)]
      · rw [if_pos hz2, if_neg (show ¬ ((dat t b1 p : ℝ) / (dat t b2 p : ℝ) + 1 < 0) by
            rw [hrad0]; exact lt_irrefl 0)]
        rw [if_pos (Or.inl (show Real.sqrt ((dat t b1 p : ℝ) / (dat t b2 p : ℝ) + 1) = 0 by
            rw [hrad0]; exact Real.sqrt_zero))]
    · by_cases hz2 : dat t b2 p = 0
      · rw [if_neg (not_not_intro hz2)]
      · rw [if_pos hz2, if_neg (not_lt.mpr (le_of_lt hradpos))]
        rcases hout with hhi | hlo
        · rw [if_pos (Or.inr (Or.inl hhi))]
        · rw [if_pos (Or.inr (Or.inr hlo))]
  · intro hz hradpos hhi hlo
    rw [if_pos hz, if_neg (not_lt.mpr (le_of_lt hradpos)), if_neg]
    push_neg
    exact ⟨ne_of_gt (Real.sqrt_pos.mpr hradpos), not_lt.mp hhi, not_lt.mp hlo⟩
  · intro hz hneg
    rw [if_pos hz, if_pos hneg]

/-- C8 witness: with b1 = 0 and b2 = 1000 the radicand is 1, the
square root is 1, the scaled value -10000 is in range, and the kernel
writes -10000; with b1 = -1000 and b2 = 1000 the radicand is exactly
zero and the kernel writes the nodata sentinel. -/
theorem index_msrre_nodata_behavior_witness :
    index_msrre (fun _ b _ => if b = 0 then 0 else 1000) (fun _ _ => true) none
      0 1 1 1 (-9999) (fun _ _ => 0) 0 0 = -10000 ∧
    index_msrre (fun _ b _ => if b = 0 then -1000 else 1000) (fun _ _ => true) none
      0 1 1 1 (-9999) (fun _ _ => 0) 0 0 = -9999 := by
  constructor
  · have h := (index_msrre_nodata_behavior (fun _ b _ => if b = 0 then 0 else 1000)
      (fun _ _ => true) none 0 1 1 1 (-9999) (fun _ _ => 0) 0 0
      (by decide) (by decide) rfl rfl).2.1
    have e1 : (((fun _ b _ => if b = 0 then (0 : ℤ) else 1000) 0 0 0 : ℝ) /
        ((fun _ b _ => if b = 0 then (0 : ℤ) else 1000) 0 1 0 : ℝ) + 1) = 1 := by
      norm_num
    have e2 : (((fun _ b _ => if b = 0 then (0 : ℤ) else 1000) 0 0 0 : ℝ) /
        ((fun _ b _ => if b = 0 then (0 : ℤ) else 1000) 0 1 0 : ℝ) - 1) = -1 := by
      norm_num
    rw [h (by decide) (by rw [e1]; norm_num)
      (by rw [e1, e2, Real.sqrt_one]; norm_num)
      (by rw [e1, e2, Real.sqrt_one]; norm_num), e1, e2, Real.sqrt_one]
    norm_num [truncR]
    rw [show ((-10000 : ℝ)) = ((-10000 : ℤ) : ℝ) by norm_num]
    exact Int.ceil_intCast _
  · have h := (index_msrre_nodata_behavior (fun _ b _ => if b = 0 then -1000 else 1000)
      (fun _ _ => true) none 0 1 1 1 (-9999) (fun _ _ => 0) 0 0
      (by decide) (by decide) rfl rfl).1
    exact h (Or.inr (Or.inl (by norm_num)))

/-- C8 counterexample: with b1 = 2000 and b2 = -1000 the radicand
b1/b2 + 1 = -1 is nonpositive, yet the kernel does not write the
nodata sentinel -9999: the lower == 0 guard does not catch a negative
radicand, and the written value is the cast of NaN. -/
theorem index_msrre_negative_radicand_written :
    (((2000 : ℤ) : ℝ) / ((-1000 : ℤ) : ℝ) + 1 ≤ 0) ∧
    index_msrre (fun _ b _ => if b = 0 then 2000 else -1000) (fun _ _ => true) none
      0 1 1 1 (-9999) (fun _ _ => 0) 0 0 = nanCastShort ∧
    nanCastShort ≠ -9999 := by
  refine ⟨by norm_num, ?_, by decide⟩
  rw [index_msrre_unmasked (fun _ b _ => if b = 0 then 2000 else -1000) (fun _ _ => true)
    none 0 1 1 1 (-9999) (fun _ _ => 0) 0 0 (by decide) (by decide) rfl]
  unfold index_msrre_val
  norm_num

/-- C1 witness: with b1 = 2000, b2 = 1000 the ratio 1/3 is in range and
the kernel writes 3333; with b1 = 1000, b2 = -1000 the denominator is
zero and the kernel writes the nodata sentinel. -/
theorem index_differenced_correct_witness :
    index_differenced (fun _ b _ => if b = 0 then 2000 else 1000) (fun _ _ => true) none
      0 1 1 1 (-9999) (fun _ _ => 0) 0 0 = 3333 ∧
    index_differenced (fun _ b _ => if b = 0 then 1000 else -1000) (fun _ _ => true) none
      0 1 1 1 (-9999) (fun _ _ => 0) 0 0 = -9999 := by
  constructor
  · have h := (index_differenced_correct.1 (fun _ b _ => if b = 0 then 2000 else 1000)
      (fun _ _ => true) none 0 1 1 1 (-9999) (fun _ _ => 0) 0 0
      (by decide) (by decide) rfl rfl).1 (by with_unfolding_all decide)
    rw [h]
    with_unfolding_all decide
  · exact (index_differenced_correct.1 (fun _ b _ => if b = 0 then 1000 else -1000)
      (fun _ _ => true) none 0 1 1 1 (-9999) (fun _ _ => 0) 0 0
      (by decide) (by decide) rfl rfl).2 (by with_unfolding_all decide)
